import Mathlib

/-!
Verification development for the Model Acquisition & Secure Local Cache
subsystem (model manager, storage layer, crypto helpers, capabilities).

The TypeScript source is embedded shallowly:
- blobs are byte lists (`List Nat`, each entry a byte value);
- the IndexedDB-backed store is a pair of association lists (models,
  download progress) threaded explicitly through each operation;
- platform primitives (SHA-256 digest, AES-GCM, base64, UTF-8) are
  parameters of the functions that call them, since they live outside the
  repository; everything the repository itself computes is spelled out.
-/

namespace SmartReferral

/-! ## Definitions: data model, storage, crypto, download engine, manager, fixtures -/

def alGet {α : Type} (l : List (String × α)) (k : String) : Option α :=
  match l with
  | [] => none
  | (k', v') :: rest => if k' = k then some v' else alGet rest k

def alPut {α : Type} (l : List (String × α)) (k : String) (v : α) : List (String × α) :=
  match l with
  | [] => [(k, v)]
  | (k', v') :: rest => if k' = k then (k, v) :: rest else (k', v') :: alPut rest k v

def alDelete {α : Type} (l : List (String × α)) (k : String) : List (String × α) :=
  match l with
  | [] => []
  | (k', v') :: rest => if k' = k then alDelete rest k else (k', v') :: alDelete rest k

/-- ModelMetadata from src/types/index.ts.  The checksum is kept as a
character list so that case-normalisation is elementwise. -/
structure ModelMetadata where
  id : String
  name : String
  type : String
  version : String
  size : Nat
  quantization : String
  capabilities : List String
  license : String
  redistributable : Bool
  checksum : List Char
  signature : Option (List Char) := none
  url : Option String := none
  isSeed : Bool
deriving DecidableEq, Repr

inductive DLStatus where
  | pending
  | downloading
  | verifying
  | complete
  | error
deriving DecidableEq, Repr

/-- DownloadProgress events (src/types/index.ts); percentage is a rational,
with the Lean convention x / 0 = 0 standing in for the JS NaN/Infinity that
a zero totalBytes would produce. -/
structure DownloadProgress where
  modelId : String
  bytesDownloaded : Nat
  totalBytes : Nat
  percentage : ℚ
  status : DLStatus
  error : Option String := none
deriving DecidableEq, Repr

structure DeviceCapabilities where
  hasWebAssembly : Bool
  hasWebGPU : Bool
  availableMemoryGB : Nat
  cpuCores : Nat
  isMobile : Bool
  recommendedModel : String
deriving DecidableEq, Repr

/-- One record of the models object store: id, metadata, blob, verified. -/
structure ModelRecord where
  metadata : ModelMetadata
  blob : List Nat
  verified : Bool
deriving DecidableEq, Repr

/-- One record of the downloadProgress object store. -/
structure DownloadState where
  modelId : String
  bytesDownloaded : Nat
  totalBytes : Nat
  chunks : List (List Nat)
deriving DecidableEq, Repr

/-- The persistent store: the two collections the model-manager claims
touch (models, downloadProgress), keyed by model id. -/
structure Store where
  models : List (String × ModelRecord)
  progress : List (String × DownloadState)
deriving DecidableEq, Repr

def emptyStore : Store := { models := [], progress := [] }

def saveModel (s : Store) (metadata : ModelMetadata) (blob : List Nat)
    (verified : Bool) : Store :=
  { s with models := alPut s.models metadata.id ⟨metadata, blob, verified⟩ }

def getModel (s : Store) (modelId : String) : Option (List Nat) :=
  (alGet s.models modelId).map (fun r => r.blob)

def getModelMetadata (s : Store) (modelId : String) : Option ModelMetadata :=
  (alGet s.models modelId).map (fun r => r.metadata)

def isModelReady (s : Store) (modelId : String) : Bool :=
  ((alGet s.models modelId).map (fun r => r.verified)).getD false

def saveDownloadProgress (s : Store) (modelId : String) (bytesDownloaded totalBytes : Nat)
    (chunks : List (List Nat)) : Store :=
  { s with progress := alPut s.progress modelId ⟨modelId, bytesDownloaded, totalBytes, chunks⟩ }

def getDownloadProgress (s : Store) (modelId : String) : Option DownloadState :=
  alGet s.progress modelId

def clearDownloadProgress (s : Store) (modelId : String) : Store :=
  { s with progress := alDelete s.progress modelId }

/-- Hex digit character, lowercase, as produced by JS Number.toString(16). -/
def hexDigitChar (n : Nat) : Char :=
  if n < 10 then Char.ofNat (48 + n) else Char.ofNat (87 + n)

/-- Lowercase hexadecimal rendering of a natural number (JS b.toString(16)). -/
def toHexString (n : Nat) : List Char :=
  if h : n < 16 then [hexDigitChar n]
  else toHexString (n / 16) ++ [hexDigitChar (n % 16)]
  decreasing_by
    exact Nat.div_lt_self (Nat.lt_of_lt_of_le (by norm_num) (Nat.le_of_not_lt h)) (by norm_num)

/-- JS s.padStart(2, the zero character). -/
def padStart2 (s : List Char) : List Char :=
  if s.length ≥ 2 then s else List.replicate (2 - s.length) '0' ++ s

/-- bufferToHex from the crypto module: map each byte through
toString(16).padStart(2,'0') and join. -/
def bufferToHex (buffer : List Nat) : List Char :=
  (buffer.map (fun b => padStart2 (toHexString b))).flatten

/-- Elementwise toLowerCase on a character list (JS String.toLowerCase). -/
def toLowerStr (s : List Char) : List Char := s.map Char.toLower

/-- Elementwise toUpperCase, used to state case-insensitivity. -/
def toUpperStr (s : List Char) : List Char := s.map Char.toUpper

/-- computeChecksum: digest the blob (SHA-256, a platform primitive passed
as the parameter) and hex-encode the result. -/
def computeChecksum (digest : List Nat → List Nat) (blob : List Nat) : List Char :=
  bufferToHex (digest blob)

/-- verifyChecksum: recompute and compare against the lowercased expected
value (actualChecksum === expectedChecksum.toLowerCase()). -/
def verifyChecksum (digest : List Nat → List Nat) (blob : List Nat)
    (expectedChecksum : List Char) : Bool :=
  decide (computeChecksum digest blob = toLowerStr expectedChecksum)

def isLowerHexDigit (c : Char) : Bool :=
  (48 ≤ c.toNat && c.toNat ≤ 57) || (97 ≤ c.toNat && c.toNat ≤ 102)

/-- An outbound fetch request: the url and the optional Range header. -/
structure Request where
  url : String
  range : Option String := none
deriving DecidableEq, Repr

/-- The Range header value the engine constructs when resuming. -/
def rangeHeader (startByte : Nat) : String :=
  "bytes=" ++ toString startByte ++ "-"

/-- The part of a fetch Response the engine inspects: ok flag, HTTP status,
status text, the parsed Content-Length header (absent when undeclared), and
the body as a sequence of received chunks (absent when not readable). -/
structure Response where
  ok : Bool
  status : Nat
  statusText : String := ""
  contentLength : Option Nat := none
  body : Option (List (List Nat)) := none
deriving DecidableEq, Repr

/-- Outcome of one engine attempt: normal return or a thrown error. -/
inductive DLOutcome where
  | success
  | failure (msg : String)
deriving DecidableEq, Repr

def downloadingEvent (modelId : String) (bytesDownloaded totalBytes : Nat) : DownloadProgress :=
  { modelId := modelId, bytesDownloaded := bytesDownloaded, totalBytes := totalBytes,
    percentage := ((bytesDownloaded : ℚ) / (totalBytes : ℚ)) * 100,
    status := .downloading, error := none }

def verifyingEvent (modelId : String) (totalBytes : Nat) : DownloadProgress :=
  { modelId := modelId, bytesDownloaded := totalBytes, totalBytes := totalBytes,
    percentage := 100, status := .verifying, error := none }

def completeEvent (modelId : String) (totalBytes : Nat) : DownloadProgress :=
  { modelId := modelId, bytesDownloaded := totalBytes, totalBytes := totalBytes,
    percentage := 100, status := .complete, error := none }

/-- The error event emitted by the catch handler: bytesDownloaded 0,
totalBytes from the descriptor, percentage 0. -/
def errorEvent (metadata : ModelMetadata) (msg : String) : DownloadProgress :=
  { modelId := metadata.id, bytesDownloaded := 0, totalBytes := metadata.size,
    percentage := 0, status := .error, error := some msg }

/-- State after the chunk-reading loop: accumulated chunks, running byte
count, store (with any periodic checkpoints written), events emitted. -/
structure LoopResult where
  chunks : List (List Nat)
  bytesDownloaded : Nat
  store : Store
  events : List DownloadProgress
deriving DecidableEq, Repr

/-- The while(true) reader loop: push each chunk, bump the byte counter,
checkpoint every 10th chunk, emit a downloading event per chunk. -/
def downloadLoop (modelId : String) (totalBytes : Nat) :
    List (List Nat) → List (List Nat) → Nat → Store → LoopResult
  | [], chunks, bytes, store => ⟨chunks, bytes, store, []⟩
  | value :: rest, chunks, bytes, store =>
    let chunks' := chunks ++ [value]
    let bytes' := bytes + value.length
    let store' := if chunks'.length % 10 = 0
      then saveDownloadProgress store modelId bytes' totalBytes chunks'
      else store
    let r := downloadLoop modelId totalBytes rest chunks' bytes' store'
    ⟨r.chunks, r.bytesDownloaded, r.store, downloadingEvent modelId bytes' totalBytes :: r.events⟩

/-- One attempt of downloadModelInBackground: the request it issued (none
when it threw before fetching), the ProgressEvents in emission order, the
resulting store, and the outcome. -/
structure DownloadResult where
  request : Option Request
  events : List DownloadProgress
  store : Store
  outcome : DLOutcome
deriving DecidableEq, Repr

/-- The resume offset: bytesDownloaded of any persisted DownloadState, 0
otherwise. -/
def dlStartByte (store : Store) (modelId : String) : Nat :=
  (((getDownloadProgress store modelId).map (fun p => p.bytesDownloaded))).getD 0

/-- The chunks recovered from any persisted DownloadState. -/
def dlChunks0 (store : Store) (modelId : String) : List (List Nat) :=
  (((getDownloadProgress store modelId).map (fun p => p.chunks))).getD []

/-- The request the engine issues: Range header present iff resuming past
byte 0. -/
def dlRequest (url : String) (startByte : Nat) : Request :=
  { url := url, range := if startByte > 0 then some (rangeHeader startByte) else none }

/-- Shallow embedding of downloadModelInBackground.  digest is the SHA-256
primitive; fetch is the network.  Resume offset comes from any persisted
DownloadState; totalBytes is the parsed Content-Length (0 when absent) plus
the resume offset; non-ok non-206 responses and checksum mismatches throw,
which the catch handler turns into a terminal error event plus a rethrow. -/
def downloadModelInBackground (digest : List Nat → List Nat) (fetch : Request → Response)
    (metadata : ModelMetadata) (store : Store) : DownloadResult :=
  match metadata.url with
  | none => ⟨none, [], store, .failure ("No URL specified for model " ++ metadata.id)⟩
  | some url =>
    let startByte := dlStartByte store metadata.id
    let request := dlRequest url startByte
    let response := fetch request
    if response.ok = false ∧ response.status ≠ 206 then
      ⟨some request, [errorEvent metadata ("Download failed: " ++ response.statusText)],
        store, .failure ("Download failed: " ++ response.statusText)⟩
    else
      let totalBytes := response.contentLength.getD 0 + startByte
      match response.body with
      | none =>
        ⟨some request, [errorEvent metadata "Response body is not readable"],
          store, .failure "Response body is not readable"⟩
      | some body =>
        let r := downloadLoop metadata.id totalBytes body (dlChunks0 store metadata.id) startByte store
        let modelBlob := r.chunks.flatten
        if verifyChecksum digest modelBlob metadata.checksum then
          ⟨some request,
            r.events ++ [verifyingEvent metadata.id totalBytes, completeEvent metadata.id totalBytes],
            clearDownloadProgress (saveModel r.store metadata modelBlob true) metadata.id,
            .success⟩
        else
          ⟨some request,
            r.events ++ [verifyingEvent metadata.id totalBytes,
              errorEvent metadata ("Checksum verification failed for " ++ metadata.id)],
            r.store, .failure ("Checksum verification failed for " ++ metadata.id)⟩

/-- checkStorageAvailability: the storage estimate is (usage, quota) when the
platform exposes one; available MB must cover the required MB.  Exact
rational arithmetic models the JS float division. -/
def checkStorageAvailability (estimate : Option (Nat × Nat)) (requiredMB : ℚ) : Bool :=
  match estimate with
  | some (usage, quota) => decide (((quota : ℚ) - (usage : ℚ)) / (1024 * 1024) ≥ requiredMB)
  | none => true

/-- The hardcoded DEFAULT_MANIFEST model list from model-manager.ts. -/
def defaultManifest : List ModelMetadata :=
  [ { id := "llm-seed-q8", name := "Seed LLM (Q8)", type := "llm", version := "1.0",
      size := 45 * 1024 * 1024, quantization := "Q8_0",
      capabilities := ["referral-generation", "en", "ar"], license := "Apache-2.0",
      redistributable := true, checksum := "abc123...".data, isSeed := true },
    { id := "llm-small-q4", name := "Small LLM (Q4)", type := "llm", version := "1.0",
      size := 180 * 1024 * 1024, quantization := "Q4_K_M",
      capabilities := ["referral-generation", "en", "ar", "high-accuracy"],
      license := "Apache-2.0", redistributable := true, checksum := "def456...".data,
      url := some "https://models.example.com/llm-small-q4.gguf", isSeed := false },
    { id := "llm-medium-q4", name := "Medium LLM (Q4)", type := "llm", version := "1.0",
      size := 420 * 1024 * 1024, quantization := "Q4_K_M",
      capabilities := ["referral-generation", "en", "ar", "high-accuracy", "complex-cases"],
      license := "Llama-2", redistributable := false, checksum := "ghi789...".data,
      url := some "https://models.example.com/llm-medium-q4.gguf", isSeed := false },
    { id := "stt-whisper-tiny", name := "Whisper Tiny (STT)", type := "stt", version := "1.0",
      size := 75 * 1024 * 1024, quantization := "Q5_1",
      capabilities := ["stt", "en", "ar"], license := "MIT",
      redistributable := true, checksum := "jkl012...".data, isSeed := true },
    { id := "stt-whisper-base", name := "Whisper Base (STT)", type := "stt", version := "1.0",
      size := 140 * 1024 * 1024, quantization := "Q5_1",
      capabilities := ["stt", "en", "ar", "high-accuracy"], license := "MIT",
      redistributable := true, checksum := "mno345...".data,
      url := some "https://models.example.com/stt-whisper-base.bin", isSeed := false } ]

/-- loadSeedModel: fetch the bundled asset, verify the checksum, save with
verified = true; any failure is thrown (Except.error). -/
def loadSeedModel (digest : List Nat → List Nat) (fetch : Request → Response)
    (metadata : ModelMetadata) (store : Store) : Except String Store :=
  let response := fetch { url := "/models/" ++ metadata.id ++ ".gguf", range := none }
  if response.ok = false then
    .error ("Failed to load seed model: " ++ response.statusText)
  else
    let blob := (response.body.getD []).flatten
    if verifyChecksum digest blob metadata.checksum then
      .ok (saveModel store metadata blob true)
    else
      .error ("Checksum verification failed for " ++ metadata.id)

/-- How one startBackgroundModelFetch call resolved. -/
inductive FetchOutcome where
  | noModelToFetch
  | alreadyAvailable
  | insufficientStorage
  | downloadSucceeded
  | downloadFailedLogged (msg : String)
deriving DecidableEq, Repr

/-- startBackgroundModelFetch.  The Except codomain records whether an
exception escapes to the caller; the background download rejection is
swallowed by the .catch handler and reported only as a logged outcome. -/
def startBackgroundModelFetch (digest : List Nat → List Nat) (fetch : Request → Response)
    (estimate : Option (Nat × Nat)) (capabilities : DeviceCapabilities) (store : Store) :
    Except String (FetchOutcome × Store) :=
  match defaultManifest.find? (fun m => m.id == capabilities.recommendedModel) with
  | none => .ok (.noModelToFetch, store)
  | some model =>
    if model.isSeed then .ok (.noModelToFetch, store)
    else if isModelReady store model.id then .ok (.alreadyAvailable, store)
    else if checkStorageAvailability estimate ((model.size : ℚ) / (1024 * 1024)) = false then
      .ok (.insufficientStorage, store)
    else
      let r := downloadModelInBackground digest fetch model store
      match r.outcome with
      | .success => .ok (.downloadSucceeded, r.store)
      | .failure msg => .ok (.downloadFailedLogged msg, r.store)

/-- loadModelForInference: fetch blob and metadata from the store,
re-verify the checksum, and only then hand the blob out. -/
def loadModelForInference (digest : List Nat → List Nat) (store : Store)
    (modelId : String) : Except String (List Nat) :=
  match getModel store modelId with
  | none => .error ("Model not found: " ++ modelId)
  | some blob =>
    match getModelMetadata store modelId with
    | none => .error ("Model metadata not found: " ++ modelId)
    | some metadata =>
      if verifyChecksum digest blob metadata.checksum then .ok blob
      else .error ("Model integrity check failed: " ++ modelId)

/-- EncryptedData from src/types/index.ts: the three base64-encoded fields;
the encoding's codomain is abstract. -/
structure EncryptedData (α : Type) where
  iv : α
  data : α
  salt : α

/-- encrypt: fresh salt and iv are inputs (crypto.getRandomValues); the key
is derived from the salt (PBKDF2 over fixed material, so a pure function of
the salt); AES-GCM, base64 and UTF-8 are platform primitives passed in. -/
def encrypt {α κ : Type} (b64encode : List Nat → α) (deriveKey : List Nat → κ)
    (aesEncrypt : κ → List Nat → List Nat → List Nat) (textEncode : String → List Nat)
    (salt iv : List Nat) (data : String) : EncryptedData α :=
  let key := deriveKey salt
  let encodedData := textEncode data
  let encryptedBuffer := aesEncrypt key iv encodedData
  { iv := b64encode iv, data := b64encode encryptedBuffer, salt := b64encode salt }

/-- decrypt: decode the three fields, re-derive the key from the decoded
salt, AES-GCM-decrypt (which can fail), decode the plaintext. -/
def decrypt {α κ : Type} (b64decode : α → List Nat) (deriveKey : List Nat → κ)
    (aesDecrypt : κ → List Nat → List Nat → Option (List Nat)) (textDecode : List Nat → String)
    (encrypted : EncryptedData α) : Option String :=
  let salt := b64decode encrypted.salt
  let iv := b64decode encrypted.iv
  let data := b64decode encrypted.data
  let key := deriveKey salt
  (aesDecrypt key iv data).map textDecode

/-- An event that ends an attempt. -/
def isTerminalEvent (e : DownloadProgress) : Bool :=
  e.status == DLStatus.complete || e.status == DLStatus.error

/-- Every element of the list is at least b, and the list is sorted
non-decreasingly. -/
def monoFrom (b : Nat) : List Nat → Bool
  | [] => true
  | x :: xs => (decide (b ≤ x)) && monoFrom x xs

/-- Consecutive elements are non-decreasing. -/
def chainLe : List Nat → Bool
  | [] => true
  | x :: xs => monoFrom x xs

/-- Modelled from the spec: totalBytes computed from the declared remaining
length plus the resume offset, falling back to the descriptor's sizeBytes
when the response declares no length (spec 4.4 step 3). -/
def computeTotalBytesSpec (contentLength : Option Nat) (resumeOffset sizeBytes : Nat) : Nat :=
  match contentLength with
  | some len => len + resumeOffset
  | none => sizeBytes

/-- The totalBytes the source actually computes at line 220. -/
def computeTotalBytes (contentLength : Option Nat) (resumeOffset : Nat) : Nat :=
  contentLength.getD 0 + resumeOffset

/-- A degenerate digest: hashes everything to the empty byte sequence, so
its hex encoding is empty and never matches a nonempty expected checksum. -/
def emptyDigest : List Nat → List Nat := fun _ => []

/-- A digest whose 32-byte output shape matches SHA-256's. -/
def sha256ShapeDigest : List Nat → List Nat := fun _ => List.replicate 32 0

/-- A small descriptor builder for fixtures. -/
def mkTestMeta (id : String) (size : Nat) (checksum : List Char)
    (url : Option String) : ModelMetadata :=
  { id := id, name := id, type := "llm", version := "1.0", size := size,
    quantization := "Q4", capabilities := [], license := "MIT",
    redistributable := true, checksum := checksum, url := url, isSeed := false }

/-- A network that always answers with the same response. -/
def constFetch (resp : Response) : Request → Response := fun _ => resp

/-- The operations that touch the persistent store in the manager and the
storage layer: a seed-load attempt, a background download attempt, and the
raw download-progress writes. -/
inductive CacheOp where
  | seedLoad (metadata : ModelMetadata)
  | backgroundDownload (metadata : ModelMetadata)
  | progressSave (modelId : String) (bytesDownloaded totalBytes : Nat) (chunks : List (List Nat))
  | progressClear (modelId : String)

/-- Apply one operation to the store; a seed-load failure leaves the store
as the operation found it. -/
def applyOp (digest : List Nat → List Nat) (fetch : Request → Response)
    (s : Store) : CacheOp → Store
  | .seedLoad metadata =>
    match loadSeedModel digest fetch metadata s with
    | .ok s' => s'
    | .error _ => s
  | .backgroundDownload metadata => (downloadModelInBackground digest fetch metadata s).store
  | .progressSave modelId b t cs => saveDownloadProgress s modelId b t cs
  | .progressClear modelId => clearDownloadProgress s modelId

/-- Every record of the models collection is marked verified. -/
def StoreInv (s : Store) : Prop :=
  ∀ k r, alGet s.models k = some r → r.verified = true

/-- The manifest entry the mid-tier policy recommends. -/
def llmSmallQ4 : ModelMetadata :=
  { id := "llm-small-q4", name := "Small LLM (Q4)", type := "llm", version := "1.0",
    size := 180 * 1024 * 1024, quantization := "Q4_K_M",
    capabilities := ["referral-generation", "en", "ar", "high-accuracy"],
    license := "Apache-2.0", redistributable := true, checksum := "def456...".data,
    url := some "https://models.example.com/llm-small-q4.gguf", isSeed := false }

/-- A response delivering ten one-byte chunks with a declared length of 10. -/
def tenChunkResponse : Response :=
  { ok := true, status := 200, contentLength := some 10,
    body := some [[0], [1], [2], [3], [4], [5], [6], [7], [8], [9]] }

/-! ## Theorems: supporting lemmas and the claim results -/

theorem alGet_alPut_same {α : Type} (l : List (String × α)) (k : String) (v : α) :
    alGet (alPut l k v) k = some v := by
  induction l with
  | nil => simp [alGet, alPut]
  | cons p rest ih =>
    obtain ⟨k', v'⟩ := p
    by_cases h : k' = k <;> simp [alGet, alPut, h, ih]

theorem alGet_alPut_ne {α : Type} (l : List (String × α)) (k k' : String) (v : α)
    (h : k ≠ k') : alGet (alPut l k v) k' = alGet l k' := by
  induction l with
  | nil => simp [alGet, alPut, h]
  | cons p rest ih =>
    obtain ⟨k0, v0⟩ := p
    by_cases h0 : k0 = k
    · subst h0
      simp [alGet, alPut, h]
    · by_cases h1 : k0 = k' <;> simp [alGet, alPut, h0, h1, Ne.symm h, ih]

theorem alGet_alDelete_same {α : Type} (l : List (String × α)) (k : String) :
    alGet (alDelete l k) k = none := by
  induction l with
  | nil => simp [alGet, alDelete]
  | cons p rest ih =>
    obtain ⟨k', v'⟩ := p
    by_cases h : k' = k <;> simp [alGet, alDelete, h, ih]

theorem hexDigitChar_lower_fixed {n : Nat} (h : n < 16) :
    Char.toLower (hexDigitChar n) = hexDigitChar n ∧
    Char.toLower (Char.toUpper (hexDigitChar n)) = hexDigitChar n ∧
    isLowerHexDigit (hexDigitChar n) = true := by
  interval_cases n <;> exact ⟨by decide, by decide, by decide⟩

theorem toHexString_mem {n : Nat} {c : Char} (h : c ∈ toHexString n) :
    ∃ m, m < 16 ∧ c = hexDigitChar m := by
  induction n using Nat.strong_induction_on with
  | _ n ih =>
    rw [toHexString] at h
    by_cases h16 : n < 16
    · simp [h16] at h
      exact ⟨n, h16, h⟩
    · simp [h16] at h
      rcases h with h | h
      · exact ih (n / 16)
          (Nat.div_lt_self (Nat.lt_of_lt_of_le (by norm_num) (Nat.le_of_not_lt h16)) (by norm_num)) h
      · exact ⟨n % 16, Nat.mod_lt _ (by norm_num), h⟩

theorem padStart2_mem {s : List Char} {c : Char} (h : c ∈ padStart2 s) :
    c = '0' ∨ c ∈ s := by
  unfold padStart2 at h
  by_cases h2 : s.length ≥ 2
  · simp [h2] at h
    exact Or.inr h
  · simp [h2] at h
    rcases h with h | h
    · exact Or.inl h.2
    · exact Or.inr h

theorem bufferToHex_mem {buffer : List Nat} {c : Char} (h : c ∈ bufferToHex buffer) :
    ∃ m, m < 16 ∧ c = hexDigitChar m := by
  unfold bufferToHex at h
  rw [List.mem_flatten] at h
  obtain ⟨l, hl, hc⟩ := h
  rw [List.mem_map] at hl
  obtain ⟨b, _, rfl⟩ := hl
  rcases padStart2_mem hc with h0 | h0
  · exact ⟨0, by norm_num, by rw [h0]; decide⟩
  · exact toHexString_mem h0

theorem map_self_of_mem {f : Char → Char} {l : List Char}
    (h : ∀ c ∈ l, f c = c) : l.map f = l := by
  induction l with
  | nil => rfl
  | cons c cs ih =>
    simp only [List.map_cons, h c (List.mem_cons_self _ _),
      ih (fun x hx => h x (List.mem_cons_of_mem _ hx))]

theorem toLowerStr_bufferToHex (buffer : List Nat) :
    toLowerStr (bufferToHex buffer) = bufferToHex buffer := by
  unfold toLowerStr
  apply map_self_of_mem
  intro c hc
  obtain ⟨m, hm, rfl⟩ := bufferToHex_mem hc
  exact (hexDigitChar_lower_fixed hm).1

theorem toLowerStr_toUpperStr_bufferToHex (buffer : List Nat) :
    toLowerStr (toUpperStr (bufferToHex buffer)) = bufferToHex buffer := by
  unfold toLowerStr toUpperStr
  rw [List.map_map]
  apply map_self_of_mem
  intro c hc
  obtain ⟨m, hm, rfl⟩ := bufferToHex_mem hc
  exact (hexDigitChar_lower_fixed hm).2.1

theorem toHexString_length_le {b : Nat} (h : b < 256) :
    1 ≤ (toHexString b).length ∧ (toHexString b).length ≤ 2 := by
  rw [toHexString]
  by_cases h16 : b < 16
  · simp [h16]
  · have hdiv : b / 16 < 16 := by omega
    rw [toHexString]
    simp [h16, hdiv]

theorem padStart2_length {s : List Char} (h1 : 1 ≤ s.length) (h2 : s.length ≤ 2) :
    (padStart2 s).length = 2 := by
  unfold padStart2
  by_cases hge : s.length ≥ 2
  · simp [hge]; omega
  · simp [hge]; omega

theorem bufferToHex_length {buffer : List Nat} (h : ∀ b ∈ buffer, b < 256) :
    (bufferToHex buffer).length = 2 * buffer.length := by
  induction buffer with
  | nil => simp [bufferToHex]
  | cons b rest ih =>
    have hb := h b (List.mem_cons_self _ _)
    have hrest : ∀ x ∈ rest, x < 256 := fun x hx => h x (List.mem_cons_of_mem _ hx)
    have hlen := toHexString_length_le hb
    unfold bufferToHex at ih ⊢
    simp only [List.map_cons, List.flatten_cons, List.length_append, List.length_cons, ih hrest]
    rw [padStart2_length hlen.1 hlen.2]
    omega

theorem chainLe_of_monoFrom {b : Nat} {l : List Nat} (h : monoFrom b l = true) :
    chainLe l = true := by
  cases l with
  | nil => rfl
  | cons x xs =>
    simp only [monoFrom, Bool.and_eq_true] at h
    exact h.2

theorem downloadLoop_store_models (modelId : String) (totalBytes : Nat)
    (body : List (List Nat)) : ∀ chunks bytes store,
    (downloadLoop modelId totalBytes body chunks bytes store).store.models = store.models := by
  induction body with
  | nil => intro chunks bytes store; rfl
  | cons value rest ih =>
    intro chunks bytes store
    simp only [downloadLoop, ih]
    split <;> simp [saveDownloadProgress]

theorem downloadLoop_events_form (modelId : String) (totalBytes : Nat)
    (body : List (List Nat)) : ∀ chunks bytes store,
    ∀ e ∈ (downloadLoop modelId totalBytes body chunks bytes store).events,
      ∃ b, e = downloadingEvent modelId b totalBytes := by
  induction body with
  | nil => intro chunks bytes store e he; simp [downloadLoop] at he
  | cons value rest ih =>
    intro chunks bytes store e he
    simp only [downloadLoop, List.mem_cons] at he
    rcases he with rfl | he
    · exact ⟨bytes + value.length, rfl⟩
    · exact ih _ _ _ e he

theorem downloadLoop_events_mono (modelId : String) (totalBytes : Nat)
    (body : List (List Nat)) : ∀ chunks bytes store,
    monoFrom bytes
      ((downloadLoop modelId totalBytes body chunks bytes store).events.map
        (fun e => e.bytesDownloaded)) = true := by
  induction body with
  | nil => intro chunks bytes store; rfl
  | cons value rest ih =>
    intro chunks bytes store
    simp only [downloadLoop, List.map_cons, monoFrom, Bool.and_eq_true, decide_eq_true_eq]
    exact ⟨Nat.le_add_right _ _, ih _ _ _⟩

theorem downloadLoop_filter_downloading (modelId : String) (totalBytes : Nat)
    (body chunks : List (List Nat)) (bytes : Nat) (store : Store) :
    (downloadLoop modelId totalBytes body chunks bytes store).events.filter
      (fun e => e.status == DLStatus.downloading) =
    (downloadLoop modelId totalBytes body chunks bytes store).events := by
  rw [List.filter_eq_self]
  intro e he
  obtain ⟨b, rfl⟩ := downloadLoop_events_form modelId totalBytes body chunks bytes store e he
  rfl

theorem downloadLoop_events_not_terminal (modelId : String) (totalBytes : Nat)
    (body chunks : List (List Nat)) (bytes : Nat) (store : Store) :
    ∀ e ∈ (downloadLoop modelId totalBytes body chunks bytes store).events,
      isTerminalEvent e = false := by
  intro e he
  obtain ⟨b, rfl⟩ := downloadLoop_events_form modelId totalBytes body chunks bytes store e he
  rfl

/-- Claim C5: for every blob, verify(blob, checksum(blob)) is true; the
checksum is the 64-character lowercase hex encoding of the (32-byte SHA-256)
digest of the blob's bytes; verify compares case-insensitively on the
expected value, so verify(blob, uppercase(checksum(blob))) is also true. -/
theorem checksum_roundtrip_c5 (digest : List Nat → List Nat) (blob : List Nat)
    (h32 : (digest blob).length = 32) (hbytes : ∀ b ∈ digest blob, b < 256) :
    verifyChecksum digest blob (computeChecksum digest blob) = true ∧
    verifyChecksum digest blob (toUpperStr (computeChecksum digest blob)) = true ∧
    (computeChecksum digest blob).length = 64 ∧
    (∀ c ∈ computeChecksum digest blob, isLowerHexDigit c = true) := by
  refine ⟨?_, ?_, ?_, ?_⟩
  · simp [verifyChecksum, computeChecksum, toLowerStr_bufferToHex]
  · simp [verifyChecksum, computeChecksum, toLowerStr_toUpperStr_bufferToHex]
  · show (bufferToHex (digest blob)).length = 64
    rw [bufferToHex_length hbytes, h32]
  · intro c hc
    obtain ⟨m, hm, rfl⟩ := bufferToHex_mem hc
    exact (hexDigitChar_lower_fixed hm).2.2

/-- Witness for C5 at a concrete digest (of SHA-256's output shape) and a
concrete blob. -/
theorem checksum_roundtrip_c5_witness :
    (sha256ShapeDigest [0, 1, 2]).length = 32 ∧
    (∀ b ∈ sha256ShapeDigest [0, 1, 2], b < 256) ∧
    verifyChecksum sha256ShapeDigest [0, 1, 2]
      (toUpperStr (computeChecksum sha256ShapeDigest [0, 1, 2])) = true ∧
    (computeChecksum sha256ShapeDigest [0, 1, 2]).length = 64 := by
  refine ⟨by decide, by decide, ?_, ?_⟩
  · exact (checksum_roundtrip_c5 sha256ShapeDigest [0, 1, 2] (by decide) (by decide)).2.1
  · exact (checksum_roundtrip_c5 sha256ShapeDigest [0, 1, 2] (by decide) (by decide)).2.2.1

/-- Claim C9: decrypt(encrypt(B)) recovers B exactly, for any salt and iv,
whenever the platform primitives satisfy their contracts (base64 decode
inverts encode, AES-GCM decrypt inverts encrypt under the same key and iv,
UTF-8 decode inverts encode).  The repository-level content is that decrypt
re-derives the key from the stored salt and feeds back the stored iv and
ciphertext. -/
theorem encrypt_decrypt_roundtrip_c9 {α κ : Type}
    (b64encode : List Nat → α) (b64decode : α → List Nat)
    (deriveKey : List Nat → κ) (aesEncrypt : κ → List Nat → List Nat → List Nat)
    (aesDecrypt : κ → List Nat → List Nat → Option (List Nat))
    (textEncode : String → List Nat) (textDecode : List Nat → String)
    (hb64 : ∀ x, b64decode (b64encode x) = x)
    (haes : ∀ key iv d, aesDecrypt key iv (aesEncrypt key iv d) = some d)
    (htext : ∀ s, textDecode (textEncode s) = s)
    (salt iv : List Nat) (data : String) :
    decrypt b64decode deriveKey aesDecrypt textDecode
      (encrypt b64encode deriveKey aesEncrypt textEncode salt iv data) = some data := by
  simp [encrypt, decrypt, hb64, haes, htext]

/-- Witness for C9 with concrete primitives satisfying the contracts. -/
theorem encrypt_decrypt_roundtrip_c9_witness :
    decrypt (α := List Nat) (κ := Unit) id (fun _ => ()) (fun _ _ d => some d)
      (fun l => String.mk (l.map Char.ofNat))
      (encrypt id (fun _ => ()) (fun _ _ d => d) (fun s => s.data.map Char.toNat)
        [1, 2] [3] "referral") = some "referral" := by
  have htext : ∀ s : String, String.mk ((s.data.map Char.toNat).map Char.ofNat) = s := by
    intro s
    rw [List.map_map]
    have hmap : s.data.map (Char.ofNat ∘ Char.toNat) = s.data :=
      map_self_of_mem (fun c _ => Char.ofNat_toNat c)
    rw [hmap]
  exact encrypt_decrypt_roundtrip_c9 id id (fun _ => ()) (fun _ _ d => d)
    (fun _ _ d => some d) (fun s => s.data.map Char.toNat)
    (fun l => String.mk (l.map Char.ofNat))
    (fun x => rfl) (fun key iv d => rfl) htext [1, 2] [3] "referral"

/-- Claim C4: loadModelForInference re-verifies the stored blob against the
stored metadata checksum before returning it; a returned blob always comes
from a store record whose checksum re-verification succeeded; an absent
record yields the not-found error; a record failing re-verification yields
the integrity error. -/
theorem acquire_reverifies_c4 (digest : List Nat → List Nat) (store : Store)
    (modelId : String) :
    (∀ blob, loadModelForInference digest store modelId = .ok blob →
      ∃ r, alGet store.models modelId = some r ∧ r.blob = blob ∧
        verifyChecksum digest blob r.metadata.checksum = true) ∧
    (alGet store.models modelId = none →
      loadModelForInference digest store modelId =
        .error ("Model not found: " ++ modelId)) ∧
    (∀ r, alGet store.models modelId = some r →
      verifyChecksum digest r.blob r.metadata.checksum = false →
      loadModelForInference digest store modelId =
        .error ("Model integrity check failed: " ++ modelId)) := by
  refine ⟨?_, ?_, ?_⟩
  · intro blob hok
    unfold loadModelForInference getModel getModelMetadata at hok
    cases hrec : alGet store.models modelId with
    | none => rw [hrec] at hok; simp at hok
    | some r =>
      rw [hrec] at hok
      simp only [Option.map_some'] at hok
      by_cases hv : verifyChecksum digest r.blob r.metadata.checksum = true
      · simp only [hv, if_true] at hok
        cases hok
        exact ⟨r, rfl, rfl, hv⟩
      · simp [hv] at hok
  · intro habs
    simp [loadModelForInference, getModel, habs]
  · intro r hrec hfail
    simp [loadModelForInference, getModel, getModelMetadata, hrec, hfail]

/-- Witness for C4: a store holding one verified record hands the blob out,
and the empty store yields the not-found error. -/
theorem acquire_reverifies_c4_witness :
    (∃ r, alGet (Store.mk [("m", ⟨mkTestMeta "m" 1 [] none, [5], true⟩)] []).models "m" =
        some r ∧ r.blob = [5] ∧ verifyChecksum emptyDigest [5] r.metadata.checksum = true) ∧
    loadModelForInference emptyDigest emptyStore "m" =
      .error ("Model not found: " ++ "m") :=
  ⟨(acquire_reverifies_c4 emptyDigest
      (Store.mk [("m", ⟨mkTestMeta "m" 1 [] none, [5], true⟩)] []) "m").1 [5] rfl,
   (acquire_reverifies_c4 emptyDigest emptyStore "m").2.1 rfl⟩

/-- Claim C6: the engine issues its request with a Range header requesting
bytes k onward exactly when the resume offset k (the persisted
DownloadState's bytesDownloaded, 0 when absent) is positive, and a full
request when k is 0; and any response that is neither ok nor a 206
partial-content response makes the attempt fail as a transfer error. -/
theorem resume_range_c6 (digest : List Nat → List Nat) (fetch : Request → Response)
    (metadata : ModelMetadata) (store : Store) (u : String)
    (hurl : metadata.url = some u) :
    ((downloadModelInBackground digest fetch metadata store).request =
      some (dlRequest u (dlStartByte store metadata.id))) ∧
    (∀ st, getDownloadProgress store metadata.id = some st →
      dlStartByte store metadata.id = st.bytesDownloaded) ∧
    (getDownloadProgress store metadata.id = none → dlStartByte store metadata.id = 0) ∧
    (dlStartByte store metadata.id > 0 →
      (dlRequest u (dlStartByte store metadata.id)).range =
        some (rangeHeader (dlStartByte store metadata.id))) ∧
    (dlStartByte store metadata.id = 0 →
      (dlRequest u (dlStartByte store metadata.id)).range = none) ∧
    ((fetch (dlRequest u (dlStartByte store metadata.id))).ok = false →
      (fetch (dlRequest u (dlStartByte store metadata.id))).status ≠ 206 →
      downloadModelInBackground digest fetch metadata store =
        ⟨some (dlRequest u (dlStartByte store metadata.id)),
          [errorEvent metadata
            ("Download failed: " ++ (fetch (dlRequest u (dlStartByte store metadata.id))).statusText)],
          store,
          .failure ("Download failed: " ++
            (fetch (dlRequest u (dlStartByte store metadata.id))).statusText)⟩) := by
  refine ⟨?_, ?_, ?_, ?_, ?_, ?_⟩
  · unfold downloadModelInBackground
    rw [hurl]
    dsimp only
    split
    · rfl
    · split
      · rfl
      · split <;> rfl
  · intro st hst
    unfold dlStartByte
    rw [hst]
    rfl
  · intro habs
    unfold dlStartByte
    rw [habs]
    rfl
  · intro hpos
    simp [dlRequest, hpos]
  · intro hzero
    simp [dlRequest, hzero]
  · intro h1 h2
    unfold downloadModelInBackground
    rw [hurl]
    dsimp only
    rw [if_pos ⟨h1, h2⟩]

/-- Witness for C6, scenario D: a persisted DownloadState at 600000 bytes
makes the next request carry Range bytes=600000-, and a 404 response makes
the attempt fail. -/
theorem resume_range_c6_witness :
    (mkTestMeta "llm-small-q4" 1000000 [] (some "https://cdn/llm-small-q4.gguf")).url =
      some "https://cdn/llm-small-q4.gguf" ∧
    (downloadModelInBackground emptyDigest
        (constFetch { ok := false, status := 404, statusText := "Not Found" })
        (mkTestMeta "llm-small-q4" 1000000 [] (some "https://cdn/llm-small-q4.gguf"))
        (Store.mk [] [("llm-small-q4", ⟨"llm-small-q4", 600000, 1000000, []⟩)])).request =
      some { url := "https://cdn/llm-small-q4.gguf", range := some "bytes=600000-" } ∧
    (downloadModelInBackground emptyDigest
        (constFetch { ok := false, status := 404, statusText := "Not Found" })
        (mkTestMeta "llm-small-q4" 1000000 [] (some "https://cdn/llm-small-q4.gguf"))
        (Store.mk [] [("llm-small-q4", ⟨"llm-small-q4", 600000, 1000000, []⟩)])).outcome =
      .failure ("Download failed: " ++ "Not Found") := by
  have h := resume_range_c6 emptyDigest
    (constFetch { ok := false, status := 404, statusText := "Not Found" })
    (mkTestMeta "llm-small-q4" 1000000 [] (some "https://cdn/llm-small-q4.gguf"))
    (Store.mk [] [("llm-small-q4", ⟨"llm-small-q4", 600000, 1000000, []⟩)])
    "https://cdn/llm-small-q4.gguf" rfl
  refine ⟨rfl, ?_, ?_⟩
  · rw [h.1]
    decide
  · rw [h.2.2.2.2.2 rfl (by decide)]
    rfl

/-- Claim C7: startBackgroundModelFetch never throws: it always returns an
ok result; an unknown or seed recommended artifact and an already-ready one
return without a transfer and leave the store unchanged; insufficient
storage headroom (exactly: available bytes below descriptor size, compared
in MB) abandons without a transfer; an engine failure is caught and
reported as a logged outcome. -/
theorem background_fetch_no_throw_c7 (digest : List Nat → List Nat)
    (fetch : Request → Response) (estimate : Option (Nat × Nat))
    (capabilities : DeviceCapabilities) (store : Store) :
    (∃ p, startBackgroundModelFetch digest fetch estimate capabilities store = .ok p) ∧
    (defaultManifest.find? (fun m => m.id == capabilities.recommendedModel) = none →
      startBackgroundModelFetch digest fetch estimate capabilities store =
        .ok (.noModelToFetch, store)) ∧
    (∀ model, defaultManifest.find? (fun m => m.id == capabilities.recommendedModel) = some model →
      model.isSeed = true →
      startBackgroundModelFetch digest fetch estimate capabilities store =
        .ok (.noModelToFetch, store)) ∧
    (∀ model, defaultManifest.find? (fun m => m.id == capabilities.recommendedModel) = some model →
      model.isSeed = false → isModelReady store model.id = true →
      startBackgroundModelFetch digest fetch estimate capabilities store =
        .ok (.alreadyAvailable, store)) ∧
    (∀ model, defaultManifest.find? (fun m => m.id == capabilities.recommendedModel) = some model →
      model.isSeed = false → isModelReady store model.id = false →
      checkStorageAvailability estimate ((model.size : ℚ) / (1024 * 1024)) = false →
      startBackgroundModelFetch digest fetch estimate capabilities store =
        .ok (.insufficientStorage, store)) ∧
    (∀ model msg, defaultManifest.find? (fun m => m.id == capabilities.recommendedModel) = some model →
      model.isSeed = false → isModelReady store model.id = false →
      checkStorageAvailability estimate ((model.size : ℚ) / (1024 * 1024)) = true →
      (downloadModelInBackground digest fetch model store).outcome = .failure msg →
      startBackgroundModelFetch digest fetch estimate capabilities store =
        .ok (.downloadFailedLogged msg, (downloadModelInBackground digest fetch model store).store)) ∧
    (∀ usage quota sizeBytes : Nat,
      checkStorageAvailability (some (usage, quota)) ((sizeBytes : ℚ) / (1024 * 1024)) = true ↔
        (sizeBytes : ℚ) ≤ (quota : ℚ) - (usage : ℚ)) := by
  refine ⟨?_, ?_, ?_, ?_, ?_, ?_, ?_⟩
  · unfold startBackgroundModelFetch
    cases hfind : defaultManifest.find? (fun m => m.id == capabilities.recommendedModel) with
    | none => exact ⟨_, rfl⟩
    | some model =>
      dsimp only
      by_cases hseed : model.isSeed
      · simp only [hseed, if_true]
        exact ⟨_, rfl⟩
      · simp only [hseed, if_false, Bool.false_eq_true]
        by_cases hready : isModelReady store model.id
        · simp only [hready, if_true]
          exact ⟨_, rfl⟩
        · simp only [hready, Bool.false_eq_true, if_false]
          by_cases hstor : checkStorageAvailability estimate ((model.size : ℚ) / (1024 * 1024)) = false
          · simp only [hstor, if_true]
            exact ⟨_, rfl⟩
          · simp only [hstor, if_false]
            cases houtcome : (downloadModelInBackground digest fetch model store).outcome with
            | success => exact ⟨_, rfl⟩
            | failure msg => exact ⟨_, rfl⟩
  · intro hfind
    unfold startBackgroundModelFetch
    rw [hfind]
  · intro model hfind hseed
    unfold startBackgroundModelFetch
    rw [hfind]
    dsimp only
    rw [if_pos hseed]
  · intro model hfind hseed hready
    unfold startBackgroundModelFetch
    rw [hfind]
    dsimp only
    rw [if_neg (by simp [hseed]), if_pos hready]
  · intro model hfind hseed hready hstor
    unfold startBackgroundModelFetch
    rw [hfind]
    dsimp only
    rw [if_neg (by simp [hseed]), if_neg (by simp [hready]), if_pos hstor]
  · intro model msg hfind hseed hready hstor hout
    unfold startBackgroundModelFetch
    rw [hfind]
    dsimp only
    rw [if_neg (by simp [hseed]), if_neg (by simp [hready]), if_neg (by simp [hstor])]
    rw [hout]
  · intro usage quota sizeBytes
    unfold checkStorageAvailability
    rw [decide_eq_true_eq, ge_iff_le,
      div_le_div_iff_of_pos_right (by norm_num : (0 : ℚ) < 1024 * 1024)]

/-- Witness for C7: a 180MB recommended model against 500000 bytes of
headroom aborts with the insufficient-storage outcome and no exception. -/
theorem background_fetch_no_throw_c7_witness :
    startBackgroundModelFetch emptyDigest (constFetch { ok := true, status := 200 })
      (some (0, 500000)) ⟨true, false, 2, 2, false, "llm-small-q4"⟩ emptyStore =
      .ok (.insufficientStorage, emptyStore) := by
  have h := background_fetch_no_throw_c7 emptyDigest (constFetch { ok := true, status := 200 })
    (some (0, 500000)) ⟨true, false, 2, 2, false, "llm-small-q4"⟩ emptyStore
  have hstor : checkStorageAvailability (some (0, 500000))
      ((llmSmallQ4.size : ℚ) / (1024 * 1024)) = false := by
    rw [Bool.eq_false_iff]
    intro htrue
    have hle := (h.2.2.2.2.2.2 0 500000 llmSmallQ4.size).mp htrue
    norm_num [llmSmallQ4] at hle
  exact h.2.2.2.2.1 llmSmallQ4 (by decide) rfl rfl hstor

/-- Claim C1 (amended): on a checksum mismatch the attempt stores no blob
(the models collection is unchanged, so isReady is unchanged and stays
false), emits the terminal error event last, and fails; but the persisted
DownloadState is NOT deleted - the resulting store is exactly the loop
store, retaining any checkpoints written during the attempt, so
getDownloadProgress need not return Absent afterwards. -/
theorem checksum_mismatch_c1 (digest : List Nat → List Nat) (fetch : Request → Response)
    (metadata : ModelMetadata) (store : Store) (u : String)
    (response : Response) (body : List (List Nat)) (lr : LoopResult)
    (hurl : metadata.url = some u)
    (hresp : response = fetch (dlRequest u (dlStartByte store metadata.id)))
    (hok : response.ok = true ∨ response.status = 206)
    (hbody : response.body = some body)
    (hlr : lr = downloadLoop metadata.id (response.contentLength.getD 0 + dlStartByte store metadata.id)
      body (dlChunks0 store metadata.id) (dlStartByte store metadata.id) store)
    (hfail : verifyChecksum digest lr.chunks.flatten metadata.checksum = false) :
    downloadModelInBackground digest fetch metadata store =
      ⟨some (dlRequest u (dlStartByte store metadata.id)),
        lr.events ++
          [verifyingEvent metadata.id (response.contentLength.getD 0 + dlStartByte store metadata.id),
            errorEvent metadata ("Checksum verification failed for " ++ metadata.id)],
        lr.store, .failure ("Checksum verification failed for " ++ metadata.id)⟩ ∧
    lr.store.models = store.models ∧
    isModelReady lr.store metadata.id = isModelReady store metadata.id := by
  subst hresp hlr
  refine ⟨?_, ?_, ?_⟩
  · unfold downloadModelInBackground
    rw [hurl]
    dsimp only
    rw [if_neg (by rintro ⟨h1, h2⟩; rcases hok with h | h; exact absurd h (by simp [h1]); exact h2 h)]
    rw [hbody]
    dsimp only
    rw [if_neg (by simp [hfail])]
  · exact downloadLoop_store_models _ _ _ _ _ _
  · unfold isModelReady
    rw [downloadLoop_store_models]

/-- Witness for C1: a ten-chunk transfer whose checksum fails. -/
theorem checksum_mismatch_c1_witness :
    (mkTestMeta "m1" 10 "zz".data (some "u")).url = some "u" ∧
    (downloadModelInBackground emptyDigest
      (constFetch tenChunkResponse)
      (mkTestMeta "m1" 10 "zz".data (some "u")) emptyStore).outcome =
      .failure ("Checksum verification failed for " ++ "m1") := by
  have h := checksum_mismatch_c1 emptyDigest
    (constFetch tenChunkResponse)
    (mkTestMeta "m1" 10 "zz".data (some "u")) emptyStore "u" _ _ _
    rfl rfl (Or.inl rfl) rfl rfl (by decide)
  exact ⟨rfl, by rw [h.1]; rfl⟩

/-- Counterexample for C1 as stated: after the very same checksum-mismatch
attempt, the persisted DownloadState is still there - getDownloadProgress
does not return Absent (the checkpoint written at the tenth chunk
survives), contradicting the claimed deletion. -/
theorem checksum_mismatch_c1_counterexample :
    (downloadModelInBackground emptyDigest
      (constFetch tenChunkResponse)
      (mkTestMeta "m1x" 10 "zz".data (some "u")) emptyStore).outcome =
      .failure ("Checksum verification failed for " ++ "m1x") ∧
    getDownloadProgress
      (downloadModelInBackground emptyDigest
        (constFetch tenChunkResponse)
        (mkTestMeta "m1x" 10 "zz".data (some "u")) emptyStore).store "m1x" =
      some ⟨"m1x", 10, 10, [[0], [1], [2], [3], [4], [5], [6], [7], [8], [9]]⟩ := by
  exact ⟨rfl, rfl⟩

theorem filter_downloading_vc (modelId : String) (t1 t2 : Nat) :
    List.filter (fun x => x.status == DLStatus.downloading)
      [verifyingEvent modelId t1, completeEvent modelId t2] = [] := rfl

theorem filter_downloading_ve (modelId : String) (t1 : Nat) (m : ModelMetadata) (msg : String) :
    List.filter (fun x => x.status == DLStatus.downloading)
      [verifyingEvent modelId t1, errorEvent m msg] = [] := rfl

/-- Claim C2 (amended): for every attempt on a descriptor with a URL,
exactly one terminal (complete/error) event is emitted and it is the last
event; the downloading events carry non-decreasing bytesDownloaded; but the
terminal error event reports bytesDownloaded 0, so monotonicity does not
extend across the terminal event of a failed attempt. -/
theorem event_ordering_c2 (digest : List Nat → List Nat) (fetch : Request → Response)
    (metadata : ModelMetadata) (store : Store) (u : String)
    (hurl : metadata.url = some u) :
    (∃ pre term, (downloadModelInBackground digest fetch metadata store).events = pre ++ [term] ∧
      isTerminalEvent term = true ∧ ∀ e ∈ pre, isTerminalEvent e = false) ∧
    chainLe (((downloadModelInBackground digest fetch metadata store).events.filter
      (fun e => e.status == DLStatus.downloading)).map (fun e => e.bytesDownloaded)) = true := by
  unfold downloadModelInBackground
  rw [hurl]
  dsimp only
  split
  · exact ⟨⟨[], _, rfl, rfl, by simp⟩, rfl⟩
  · split
    · exact ⟨⟨[], _, rfl, rfl, by simp⟩, rfl⟩
    · split
      · constructor
        · refine ⟨_ ++ [verifyingEvent metadata.id _], completeEvent metadata.id _,
            (List.append_assoc _ [verifyingEvent metadata.id _] [completeEvent metadata.id _]).symm,
            rfl, ?_⟩
          intro e he
          rcases List.mem_append.mp he with he | he
          · exact downloadLoop_events_not_terminal _ _ _ _ _ _ e he
          · rcases List.mem_singleton.mp he with rfl
            rfl
        · rw [List.filter_append, downloadLoop_filter_downloading,
            filter_downloading_vc, List.append_nil]
          exact chainLe_of_monoFrom (downloadLoop_events_mono _ _ _ _ _ _)
      · constructor
        · refine ⟨_ ++ [verifyingEvent metadata.id _],
            errorEvent metadata ("Checksum verification failed for " ++ metadata.id),
            (List.append_assoc _ [verifyingEvent metadata.id _]
              [errorEvent metadata ("Checksum verification failed for " ++ metadata.id)]).symm,
            rfl, ?_⟩
          intro e he
          rcases List.mem_append.mp he with he | he
          · exact downloadLoop_events_not_terminal _ _ _ _ _ _ e he
          · rcases List.mem_singleton.mp he with rfl
            rfl
        · rw [List.filter_append, downloadLoop_filter_downloading,
            filter_downloading_ve, List.append_nil]
          exact chainLe_of_monoFrom (downloadLoop_events_mono _ _ _ _ _ _)

/-- Witness for C2 at a concrete successful attempt. -/
theorem event_ordering_c2_witness :
    (mkTestMeta "m2w" 3 [] (some "u")).url = some "u" ∧
    ((∃ pre term,
      (downloadModelInBackground emptyDigest
        (constFetch { ok := true, status := 200, contentLength := some 3, body := some [[7, 7, 7]] })
        (mkTestMeta "m2w" 3 [] (some "u")) emptyStore).events = pre ++ [term] ∧
      isTerminalEvent term = true ∧ ∀ e ∈ pre, isTerminalEvent e = false) ∧
    chainLe (((downloadModelInBackground emptyDigest
        (constFetch { ok := true, status := 200, contentLength := some 3, body := some [[7, 7, 7]] })
        (mkTestMeta "m2w" 3 [] (some "u")) emptyStore).events.filter
      (fun e => e.status == DLStatus.downloading)).map (fun e => e.bytesDownloaded)) = true) :=
  ⟨rfl, event_ordering_c2 emptyDigest
    (constFetch { ok := true, status := 200, contentLength := some 3, body := some [[7, 7, 7]] })
    (mkTestMeta "m2w" 3 [] (some "u")) emptyStore "u" rfl⟩

/-- Counterexample for C2 as stated: a failed attempt emits downloading
events at 3 bytes and then the terminal error event at 0 bytes, so
bytesDownloaded is not non-decreasing across consecutive events. -/
theorem event_ordering_c2_counterexample :
    ((downloadModelInBackground emptyDigest
      (constFetch { ok := true, status := 200, contentLength := some 3, body := some [[7, 7, 7]] })
      (mkTestMeta "m2x" 3 "zz".data (some "u")) emptyStore).events.map
      (fun e => e.bytesDownloaded)) = [3, 3, 0] ∧
    chainLe [3, 3, 0] = false := ⟨rfl, rfl⟩

/-- Claim C3 (amended): every downloading event of an attempt carries
totalBytes equal to the parsed Content-Length (0 when the header is absent)
plus the resume offset; there is no fallback to descriptor.sizeBytes, so an
undeclared length on a fresh download yields totalBytes = 0. -/
theorem total_bytes_c3 (digest : List Nat → List Nat) (fetch : Request → Response)
    (metadata : ModelMetadata) (store : Store) (u : String) (response : Response)
    (hurl : metadata.url = some u)
    (hresp : response = fetch (dlRequest u (dlStartByte store metadata.id))) :
    (∀ e ∈ (downloadModelInBackground digest fetch metadata store).events,
      e.status = DLStatus.downloading →
        e.totalBytes = computeTotalBytes response.contentLength (dlStartByte store metadata.id)) ∧
    (response.contentLength = none →
      computeTotalBytes response.contentLength (dlStartByte store metadata.id) =
        dlStartByte store metadata.id) := by
  subst hresp
  constructor
  · unfold downloadModelInBackground
    rw [hurl]
    dsimp only
    split
    · intro e he hst
      rcases List.mem_singleton.mp he with rfl
      cases hst
    · split
      · intro e he hst
        rcases List.mem_singleton.mp he with rfl
        cases hst
      · split <;>
        · intro e he hst
          rcases List.mem_append.mp he with he | he
          · obtain ⟨b, rfl⟩ := downloadLoop_events_form _ _ _ _ _ _ e he
            rfl
          · rcases List.mem_cons.mp he with rfl | he
            · cases hst
            · rcases List.mem_singleton.mp he with rfl
              cases hst
  · intro hnone
    rw [hnone]
    simp [computeTotalBytes]

/-- Witness for C3 at a declared Content-Length of 5 and a fresh store. -/
theorem total_bytes_c3_witness :
    (mkTestMeta "m3w" 11 [] (some "u")).url = some "u" ∧
    (downloadModelInBackground emptyDigest
      (constFetch { ok := true, status := 200, contentLength := some 5, body := some [[9, 9, 9]] })
      (mkTestMeta "m3w" 11 [] (some "u")) emptyStore).events.head? =
      some (downloadingEvent "m3w" 3 5) ∧
    (downloadingEvent "m3w" 3 5).totalBytes =
      computeTotalBytes
        ((constFetch { ok := true, status := 200, contentLength := some 5, body := some [[9, 9, 9]] })
          (dlRequest "u" (dlStartByte emptyStore "m3w"))).contentLength
        (dlStartByte emptyStore "m3w") := by
  have hhead : (downloadModelInBackground emptyDigest
      (constFetch { ok := true, status := 200, contentLength := some 5, body := some [[9, 9, 9]] })
      (mkTestMeta "m3w" 11 [] (some "u")) emptyStore).events.head? =
      some (downloadingEvent "m3w" 3 5) := rfl
  refine ⟨rfl, hhead, ?_⟩
  exact (total_bytes_c3 emptyDigest
    (constFetch { ok := true, status := 200, contentLength := some 5, body := some [[9, 9, 9]] })
    (mkTestMeta "m3w" 11 [] (some "u")) emptyStore "u" _ rfl rfl).1 _
    (List.mem_of_mem_head? hhead) rfl

/-- Counterexample for C3 as stated: with no declared Content-Length and a
45MB descriptor, the engine reports totalBytes 0 on a fresh download
instead of falling back to descriptor.sizeBytes as the claim requires. -/
theorem total_bytes_c3_counterexample :
    ((downloadModelInBackground emptyDigest
      (constFetch { ok := true, status := 200, contentLength := none, body := some [[1, 2, 3]] })
      (mkTestMeta "m3x" 47185920 "zz".data (some "u")) emptyStore).events.head?).map
      (fun e => e.totalBytes) = some 0 ∧
    (mkTestMeta "m3x" 47185920 "zz".data (some "u")).size = 47185920 ∧
    computeTotalBytesSpec none 0 47185920 = 47185920 ∧ (0 : Nat) < 47185920 :=
  ⟨rfl, rfl, rfl, by decide⟩

/-- Claim C8 (amended): a downloading event's percentage is exactly
100 * bytesDownloaded / totalBytes with NO clamping (it exceeds 100
whenever bytesDownloaded exceeds totalBytes, and the division is only
meaningful for nonzero totalBytes); verifying and complete events hardcode
percentage 100 and error events hardcode percentage 0. -/
theorem percentage_c8 (digest : List Nat → List Nat) (fetch : Request → Response)
    (metadata : ModelMetadata) (store : Store) :
    ∀ e ∈ (downloadModelInBackground digest fetch metadata store).events,
      (e.status = DLStatus.downloading →
        e.percentage = ((e.bytesDownloaded : ℚ) / (e.totalBytes : ℚ)) * 100) ∧
      ((e.status = DLStatus.verifying ∨ e.status = DLStatus.complete) → e.percentage = 100) ∧
      (e.status = DLStatus.error → e.percentage = 0) := by
  unfold downloadModelInBackground
  cases hurl : metadata.url with
  | none => intro e he; cases he
  | some u =>
    dsimp only
    split
    · intro e he
      rcases List.mem_singleton.mp he with rfl
      refine ⟨fun hst => ?_, fun hst => ?_, fun _ => rfl⟩
      · cases hst
      · rcases hst with h | h <;> cases h
    · split
      · intro e he
        rcases List.mem_singleton.mp he with rfl
        refine ⟨fun hst => ?_, fun hst => ?_, fun _ => rfl⟩
        · cases hst
        · rcases hst with h | h <;> cases h
      · split <;>
        · intro e he
          rcases List.mem_append.mp he with he | he
          · obtain ⟨b, rfl⟩ := downloadLoop_events_form _ _ _ _ _ _ e he
            refine ⟨fun _ => rfl, fun hst => ?_, fun hst => ?_⟩
            · rcases hst with h | h <;> cases h
            · cases hst
          · rcases List.mem_cons.mp he with rfl | he
            · refine ⟨fun hst => ?_, fun _ => rfl, fun hst => ?_⟩
              · cases hst
              · cases hst
            · rcases List.mem_singleton.mp he with rfl
              refine ⟨fun hst => ?_, fun hst => ?_, fun hst => ?_⟩
              · cases hst
              · first
                | rfl
                | (rcases hst with h | h <;> cases h)
              · first
                | rfl
                | (rcases hst with h | h <;> cases h)

/-- Witness for C8 at a concrete downloading event. -/
theorem percentage_c8_witness :
    (downloadModelInBackground emptyDigest
      (constFetch { ok := true, status := 200, contentLength := some 2, body := some [[0, 0, 0]] })
      (mkTestMeta "m8w" 9 [] (some "u")) emptyStore).events.head? =
      some (downloadingEvent "m8w" 3 2) ∧
    (downloadingEvent "m8w" 3 2).percentage =
      (((downloadingEvent "m8w" 3 2).bytesDownloaded : ℚ) /
        ((downloadingEvent "m8w" 3 2).totalBytes : ℚ)) * 100 := by
  have hhead : (downloadModelInBackground emptyDigest
      (constFetch { ok := true, status := 200, contentLength := some 2, body := some [[0, 0, 0]] })
      (mkTestMeta "m8w" 9 [] (some "u")) emptyStore).events.head? =
      some (downloadingEvent "m8w" 3 2) := rfl
  refine ⟨hhead, ?_⟩
  exact (percentage_c8 emptyDigest
    (constFetch { ok := true, status := 200, contentLength := some 2, body := some [[0, 0, 0]] })
    (mkTestMeta "m8w" 9 [] (some "u")) emptyStore _ (List.mem_of_mem_head? hhead)).1 rfl

/-- Counterexample for C8 as stated: an attempt that receives 3 bytes
against a declared total of 2 emits a downloading event whose percentage is
150, which exceeds 100, so the delivered percentage is not clamped to the
interval from 0 to 100. -/
theorem percentage_c8_counterexample :
    (downloadModelInBackground emptyDigest
      (constFetch { ok := true, status := 200, contentLength := some 2, body := some [[0, 0, 0]] })
      (mkTestMeta "m8x" 9 "zz".data (some "u")) emptyStore).events.head? =
      some (downloadingEvent "m8x" 3 2) ∧
    (downloadingEvent "m8x" 3 2).percentage = 150 ∧
    (100 : ℚ) < 150 := by
  refine ⟨rfl, ?_, by norm_num⟩
  show ((3 : ℚ) / (2 : ℚ)) * 100 = 150
  norm_num

theorem storeInv_saveModel_true {s : Store} (h : StoreInv s) (metadata : ModelMetadata)
    (blob : List Nat) : StoreInv (saveModel s metadata blob true) := by
  intro k r hk
  unfold saveModel at hk
  dsimp only at hk
  by_cases hkid : metadata.id = k
  · subst hkid
    rw [alGet_alPut_same] at hk
    cases hk
    rfl
  · rw [alGet_alPut_ne _ _ _ _ hkid] at hk
    exact h k r hk

theorem storeInv_of_models_eq {s s' : Store} (hm : s'.models = s.models)
    (h : StoreInv s) : StoreInv s' := by
  intro k r hk
  rw [hm] at hk
  exact h k r hk

theorem storeInv_download (digest : List Nat → List Nat) (fetch : Request → Response)
    (metadata : ModelMetadata) (store : Store) (h : StoreInv store) :
    StoreInv (downloadModelInBackground digest fetch metadata store).store := by
  unfold downloadModelInBackground
  cases hurl : metadata.url with
  | none => exact h
  | some u =>
    dsimp only
    split
    · exact h
    · split
      · exact h
      · split
        · exact storeInv_of_models_eq rfl
            (storeInv_saveModel_true
              (storeInv_of_models_eq (downloadLoop_store_models _ _ _ _ _ _) h) _ _)
        · exact storeInv_of_models_eq (downloadLoop_store_models _ _ _ _ _ _) h

theorem seedLoad_ok_stores_verified (digest : List Nat → List Nat) (fetch : Request → Response)
    (metadata : ModelMetadata) (store store' : Store)
    (hok : loadSeedModel digest fetch metadata store = .ok store') :
    ∃ blob, verifyChecksum digest blob metadata.checksum = true ∧
      alGet store'.models metadata.id = some ⟨metadata, blob, true⟩ := by
  unfold loadSeedModel at hok
  dsimp only at hok
  split at hok
  · exact Except.noConfusion hok
  · split at hok
    · cases hok
      refine ⟨_, by assumption, ?_⟩
      exact alGet_alPut_same _ _ _
    · exact Except.noConfusion hok

theorem storeInv_seedLoad (digest : List Nat → List Nat) (fetch : Request → Response)
    (metadata : ModelMetadata) (store store' : Store) (h : StoreInv store)
    (hok : loadSeedModel digest fetch metadata store = .ok store') : StoreInv store' := by
  unfold loadSeedModel at hok
  dsimp only at hok
  split at hok
  · exact Except.noConfusion hok
  · split at hok
    · cases hok
      exact storeInv_saveModel_true h _ _
    · exact Except.noConfusion hok

theorem storeInv_applyOp (digest : List Nat → List Nat) (fetch : Request → Response)
    (s : Store) (op : CacheOp) (h : StoreInv s) : StoreInv (applyOp digest fetch s op) := by
  cases op with
  | seedLoad metadata =>
    show StoreInv (match loadSeedModel digest fetch metadata s with
      | Except.ok s' => s'
      | Except.error _ => s)
    cases hres : loadSeedModel digest fetch metadata s with
    | ok s' => exact storeInv_seedLoad digest fetch metadata s s' h hres
    | error e => exact h
  | backgroundDownload metadata => exact storeInv_download digest fetch metadata s h
  | progressSave modelId b t cs => exact storeInv_of_models_eq rfl h
  | progressClear modelId => exact storeInv_of_models_eq rfl h

theorem download_eq_badResponse (digest : List Nat → List Nat) (fetch : Request → Response)
    (metadata : ModelMetadata) (store : Store) (u : String)
    (hurl : metadata.url = some u)
    (hc : (fetch (dlRequest u (dlStartByte store metadata.id))).ok = false ∧
      (fetch (dlRequest u (dlStartByte store metadata.id))).status ≠ 206) :
    downloadModelInBackground digest fetch metadata store =
      ⟨some (dlRequest u (dlStartByte store metadata.id)),
        [errorEvent metadata
          ("Download failed: " ++ (fetch (dlRequest u (dlStartByte store metadata.id))).statusText)],
        store,
        .failure ("Download failed: " ++
          (fetch (dlRequest u (dlStartByte store metadata.id))).statusText)⟩ := by
  unfold downloadModelInBackground
  rw [hurl]
  dsimp only
  rw [if_pos hc]

theorem download_eq_noBody (digest : List Nat → List Nat) (fetch : Request → Response)
    (metadata : ModelMetadata) (store : Store) (u : String)
    (hurl : metadata.url = some u)
    (hc : ¬((fetch (dlRequest u (dlStartByte store metadata.id))).ok = false ∧
      (fetch (dlRequest u (dlStartByte store metadata.id))).status ≠ 206))
    (hbody : (fetch (dlRequest u (dlStartByte store metadata.id))).body = none) :
    downloadModelInBackground digest fetch metadata store =
      ⟨some (dlRequest u (dlStartByte store metadata.id)),
        [errorEvent metadata "Response body is not readable"],
        store, .failure "Response body is not readable"⟩ := by
  unfold downloadModelInBackground
  rw [hurl]
  dsimp only
  rw [if_neg hc, hbody]

theorem download_eq_success (digest : List Nat → List Nat) (fetch : Request → Response)
    (metadata : ModelMetadata) (store : Store) (u : String) (body : List (List Nat))
    (hurl : metadata.url = some u)
    (hc : ¬((fetch (dlRequest u (dlStartByte store metadata.id))).ok = false ∧
      (fetch (dlRequest u (dlStartByte store metadata.id))).status ≠ 206))
    (hbody : (fetch (dlRequest u (dlStartByte store metadata.id))).body = some body)
    (hv : verifyChecksum digest
      (downloadLoop metadata.id
        ((fetch (dlRequest u (dlStartByte store metadata.id))).contentLength.getD 0 +
          dlStartByte store metadata.id)
        body (dlChunks0 store metadata.id) (dlStartByte store metadata.id)
        store).chunks.flatten metadata.checksum = true) :
    downloadModelInBackground digest fetch metadata store =
      ⟨some (dlRequest u (dlStartByte store metadata.id)),
        (downloadLoop metadata.id
          ((fetch (dlRequest u (dlStartByte store metadata.id))).contentLength.getD 0 +
            dlStartByte store metadata.id)
          body (dlChunks0 store metadata.id) (dlStartByte store metadata.id) store).events ++
          [verifyingEvent metadata.id
            ((fetch (dlRequest u (dlStartByte store metadata.id))).contentLength.getD 0 +
              dlStartByte store metadata.id),
           completeEvent metadata.id
            ((fetch (dlRequest u (dlStartByte store metadata.id))).contentLength.getD 0 +
              dlStartByte store metadata.id)],
        clearDownloadProgress
          (saveModel
            (downloadLoop metadata.id
              ((fetch (dlRequest u (dlStartByte store metadata.id))).contentLength.getD 0 +
                dlStartByte store metadata.id)
              body (dlChunks0 store metadata.id) (dlStartByte store metadata.id) store).store
            metadata
            (downloadLoop metadata.id
              ((fetch (dlRequest u (dlStartByte store metadata.id))).contentLength.getD 0 +
                dlStartByte store metadata.id)
              body (dlChunks0 store metadata.id) (dlStartByte store metadata.id)
              store).chunks.flatten
            true)
          metadata.id,
        .success⟩ := by
  unfold downloadModelInBackground
  rw [hurl]
  dsimp only
  rw [if_neg hc, hbody]
  dsimp only
  rw [if_pos hv]

theorem download_eq_mismatch (digest : List Nat → List Nat) (fetch : Request → Response)
    (metadata : ModelMetadata) (store : Store) (u : String) (body : List (List Nat))
    (hurl : metadata.url = some u)
    (hc : ¬((fetch (dlRequest u (dlStartByte store metadata.id))).ok = false ∧
      (fetch (dlRequest u (dlStartByte store metadata.id))).status ≠ 206))
    (hbody : (fetch (dlRequest u (dlStartByte store metadata.id))).body = some body)
    (hv : ¬(verifyChecksum digest
      (downloadLoop metadata.id
        ((fetch (dlRequest u (dlStartByte store metadata.id))).contentLength.getD 0 +
          dlStartByte store metadata.id)
        body (dlChunks0 store metadata.id) (dlStartByte store metadata.id)
        store).chunks.flatten metadata.checksum = true)) :
    (downloadModelInBackground digest fetch metadata store).outcome =
      .failure ("Checksum verification failed for " ++ metadata.id) := by
  unfold downloadModelInBackground
  rw [hurl]
  dsimp only
  rw [if_neg hc, hbody]
  dsimp only
  rw [if_neg hv]

theorem download_success_stores_verified (digest : List Nat → List Nat)
    (fetch : Request → Response) (metadata : ModelMetadata) (store : Store)
    (hsuc : (downloadModelInBackground digest fetch metadata store).outcome = .success) :
    ∃ blob, verifyChecksum digest blob metadata.checksum = true ∧
      alGet (downloadModelInBackground digest fetch metadata store).store.models metadata.id =
        some ⟨metadata, blob, true⟩ := by
  cases hurl : metadata.url with
  | none =>
    unfold downloadModelInBackground at hsuc
    rw [hurl] at hsuc
    exact DLOutcome.noConfusion hsuc
  | some u =>
    by_cases hc : (fetch (dlRequest u (dlStartByte store metadata.id))).ok = false ∧
        (fetch (dlRequest u (dlStartByte store metadata.id))).status ≠ 206
    · rw [download_eq_badResponse digest fetch metadata store u hurl hc] at hsuc
      exact DLOutcome.noConfusion hsuc
    · cases hbody : (fetch (dlRequest u (dlStartByte store metadata.id))).body with
      | none =>
        rw [download_eq_noBody digest fetch metadata store u hurl hc hbody] at hsuc
        exact DLOutcome.noConfusion hsuc
      | some body =>
        by_cases hv : verifyChecksum digest
            (downloadLoop metadata.id
              ((fetch (dlRequest u (dlStartByte store metadata.id))).contentLength.getD 0 +
                dlStartByte store metadata.id)
              body (dlChunks0 store metadata.id) (dlStartByte store metadata.id)
              store).chunks.flatten metadata.checksum = true
        · rw [download_eq_success digest fetch metadata store u body hurl hc hbody hv]
          exact ⟨_, hv, alGet_alPut_same _ _ _⟩
        · rw [download_eq_mismatch digest fetch metadata store u body hurl hc hbody hv] at hsuc
          exact DLOutcome.noConfusion hsuc

/-- Claim C10: every record a manager operation ever writes to the models
collection is verified: a successful seed load and a successful background
download both store the record with verified true only after verifyChecksum
succeeded on exactly the stored bytes; any trace of manager operations from
the empty store keeps every record verified; and under that invariant,
isModelReady is equivalent to record existence. -/
theorem verified_writes_c10 (digest : List Nat → List Nat) (fetch : Request → Response) :
    (∀ metadata store store', loadSeedModel digest fetch metadata store = .ok store' →
      ∃ blob, verifyChecksum digest blob metadata.checksum = true ∧
        alGet store'.models metadata.id = some ⟨metadata, blob, true⟩) ∧
    (∀ metadata store, (downloadModelInBackground digest fetch metadata store).outcome = .success →
      ∃ blob, verifyChecksum digest blob metadata.checksum = true ∧
        alGet (downloadModelInBackground digest fetch metadata store).store.models metadata.id =
          some ⟨metadata, blob, true⟩) ∧
    (∀ ops : List CacheOp, StoreInv (ops.foldl (applyOp digest fetch) emptyStore)) ∧
    (∀ store modelId, StoreInv store →
      (isModelReady store modelId = true ↔ ∃ r, alGet store.models modelId = some r)) := by
  refine ⟨?_, ?_, ?_, ?_⟩
  · intro metadata store store' hok
    exact seedLoad_ok_stores_verified digest fetch metadata store store' hok
  · intro metadata store hsuc
    exact download_success_stores_verified digest fetch metadata store hsuc
  · have hfold : ∀ ops : List CacheOp, ∀ s : Store, StoreInv s →
        StoreInv (ops.foldl (applyOp digest fetch) s) := by
      intro ops
      induction ops with
      | nil => intro s hs; exact hs
      | cons op rest ih =>
        intro s hs
        exact ih _ (storeInv_applyOp digest fetch s op hs)
    intro ops
    exact hfold ops emptyStore (fun k r hk => by simp [emptyStore, alGet] at hk)
  · intro store modelId h
    constructor
    · intro hready
      unfold isModelReady at hready
      cases hget : alGet store.models modelId with
      | none => rw [hget] at hready; cases hready
      | some r => exact ⟨r, rfl⟩
    · intro hex
      obtain ⟨r, hr⟩ := hex
      unfold isModelReady
      rw [hr]
      exact h _ _ hr

/-- Witness for C10: a concrete operation trace from the empty store keeps
the invariant, and the readiness equivalence holds at the empty store. -/
theorem verified_writes_c10_witness :
    StoreInv ([CacheOp.progressSave "m" 1 2 [[0]], CacheOp.progressClear "m"].foldl
      (applyOp emptyDigest (constFetch { ok := true, status := 200 })) emptyStore) ∧
    (isModelReady emptyStore "m" = true ↔ ∃ r, alGet emptyStore.models "m" = some r) := by
  have h := verified_writes_c10 emptyDigest (constFetch { ok := true, status := 200 })
  exact ⟨h.2.2.1 _, h.2.2.2 emptyStore "m" (fun k r hk => by simp [emptyStore, alGet] at hk)⟩

end SmartReferral
